import Mathlib

/-!
Verification development for the photo-backup upload coordinator (AWS Lambda
handler `handleUploadRequest`) and its batch upload client
(`photo-backup-batch`).  The Go sources are shallowly embedded: pure
computations (store-key derivation, Go `path.Clean`/`path.Join`, `time.Time`
formatting, header construction, the per-file client state machine) become
executable Lean functions, while external effects (S3 `HeadObject`,
URL presigning, the HTTP transport, the filesystem, bcrypt, EXIF parsing,
MIME sniffing) are passed in as explicit oracle values, exactly at the points
where the Go code consumes their results.
-/

/-! ## Go `time.Time` model

Go formats a `time.Time` using the wall clock of its location, i.e. the
absolute instant shifted by the zone offset.  We model a `time.Time` as the
absolute Unix seconds, the sub-second nanoseconds, and the zone offset in
seconds. -/

/-- Model of Go `time.Time`: absolute Unix seconds, nanoseconds within the
second (`0 ≤ nsec < 10^9`), and the location's offset from UTC in seconds. -/
structure GoTime where
  sec : Int
  nsec : Nat
  offset : Int
deriving DecidableEq, Repr

/-- Gregorian calendar conversion: days since the Unix epoch to
(year, month, day).  Standard era-based civil-calendar algorithm, matching
Go's `absDate` on in-range dates. -/
def civilFromDays (z0 : Int) : Int × Nat × Nat :=
  let z := z0 + 719468
  let era := Int.fdiv z 146097
  let doe : Nat := (z - era * 146097).toNat
  let yoe : Nat := (doe - doe / 1460 + doe / 36524 - doe / 146096) / 365
  let doy : Nat := doe - (365 * yoe + yoe / 4 - yoe / 100)
  let mp : Nat := (5 * doy + 2) / 153
  let d : Nat := doy - (153 * mp + 2) / 5 + 1
  let m : Nat := if mp < 10 then mp + 3 else mp - 9
  (if m ≤ 2 then (yoe : Int) + era * 400 + 1 else (yoe : Int) + era * 400, m, d)

/-- Wall-clock fields (year, month, day, hour, minute, second) of a `GoTime`
in its own location, as Go's `Format` renders them. -/
def timeParts (t : GoTime) : Int × Nat × Nat × Nat × Nat × Nat :=
  let w := t.sec + t.offset
  let days := Int.fdiv w 86400
  let sod := (w - days * 86400).toNat
  let (y, m, d) := civilFromDays days
  (y, m, d, sod / 3600, sod / 60 % 60, sod % 60)

/-- Two-digit zero padding, as Go layout element `01`/`02`/`15`/`04`/`05`. -/
def pad2 (n : Nat) : String :=
  if n < 10 then "0" ++ toString n else toString n

/-- Four-digit zero padding of a natural number. -/
def padNat4 (n : Nat) : String :=
  if n < 10 then "000" ++ toString n
  else if n < 100 then "00" ++ toString n
  else if n < 1000 then "0" ++ toString n
  else toString n

/-- Year rendering, as Go layout element `2006`. -/
def pad4 (n : Int) : String :=
  if n < 0 then "-" ++ padNat4 n.natAbs else padNat4 n.natAbs

/-- Go `t.Format("2006-01-02-15_04_05.9")`: sortable timestamp used for the
store key.  The `.9` element prints at most one fractional-second digit
(truncated tenths) and is omitted entirely when that digit is zero. -/
def formatSortable (t : GoTime) : String :=
  let (y, m, d, hh, mi, ss) := timeParts t
  let tenth := t.nsec / 100000000
  pad4 y ++ "-" ++ pad2 m ++ "-" ++ pad2 d ++ "-" ++
    pad2 hh ++ "_" ++ pad2 mi ++ "_" ++ pad2 ss ++
    (if tenth = 0 then "" else "." ++ toString tenth)

/-- Go `t.Format(time.RFC3339)`, layout `2006-01-02T15:04:05Z07:00`:
wall-clock time followed by `Z` for UTC or a signed `hh:mm` zone offset. -/
def formatRFC3339 (t : GoTime) : String :=
  let (y, m, d, hh, mi, ss) := timeParts t
  let zone :=
    if t.offset = 0 then "Z"
    else
      let am := t.offset.natAbs / 60
      (if t.offset < 0 then "-" else "+") ++ pad2 (am / 60) ++ ":" ++ pad2 (am % 60)
  pad4 y ++ "-" ++ pad2 m ++ "-" ++ pad2 d ++ "T" ++
    pad2 hh ++ ":" ++ pad2 mi ++ ":" ++ pad2 ss ++ zone

/-! ## Go `path.Clean` and `path.Join`

Direct port of Go's lexical path cleaning.  The output buffer is kept as a
reversed character list `rout`; `dotdot` is the index below which `..` may
not back up.  A fuel argument (one more than the remaining length always
suffices, since every iteration consumes at least one character) makes the
recursion structural and kernel-reducible. -/

/-- Backtracking step of Go `path.Clean` for a `..` element: the buffer has
just dropped character `c`; keep dropping while the write position exceeds
`dotdot` and the last dropped character is not a separator. -/
def cleanPop (dotdot : Nat) : Char → List Char → List Char
  | c, rest =>
    if dotdot < rest.length ∧ c ≠ '/' then
      match rest with
      | [] => []
      | c' :: rest' => cleanPop dotdot c' rest'
    else rest

/-- Main loop of Go `path.Clean` over the remaining characters, carrying the
reversed output buffer and the `dotdot` barrier. -/
def cleanLoop (rooted : Bool) : Nat → List Char → List Char → Nat → List Char
  | 0, _, rout, _ => rout
  | _ + 1, [], rout, _ => rout
  | fuel + 1, c :: r, rout, dotdot =>
    if c = '/' then
      cleanLoop rooted fuel r rout dotdot
    else if c = '.' ∧ (r.head? = none ∨ r.head? = some '/') then
      cleanLoop rooted fuel r rout dotdot
    else if c = '.' ∧ r.head? = some '.' ∧
        (r.tail.head? = none ∨ r.tail.head? = some '/') then
      if dotdot < rout.length then
        match rout with
        | [] => cleanLoop rooted fuel r.tail rout dotdot
        | c0 :: rest0 => cleanLoop rooted fuel r.tail (cleanPop dotdot c0 rest0) dotdot
      else if rooted = false then
        let rout' := '.' :: '.' :: (if rout.length ≠ 0 then '/' :: rout else rout)
        cleanLoop rooted fuel r.tail rout' rout'.length
      else
        cleanLoop rooted fuel r.tail rout dotdot
    else
      let sep : List Char :=
        if (rooted = true ∧ rout.length ≠ 1) ∨ (rooted = false ∧ rout.length ≠ 0)
        then ['/'] else []
      let name := (c :: r).takeWhile (fun x => x ≠ '/')
      let rest := (c :: r).dropWhile (fun x => x ≠ '/')
      cleanLoop rooted fuel rest (name.reverse ++ sep ++ rout) dotdot

/-- Go `path.Clean`: lexical simplification of a slash-separated path
(collapses multiple slashes, eliminates `.` and `..` elements, drops a
trailing slash, returns `.` for an empty result). -/
def pathClean (p : String) : String :=
  if p = "" then "."
  else
    let cs := p.toList
    let rooted : Bool := match cs with | '/' :: _ => true | _ => false
    let rout :=
      if rooted then cleanLoop true (cs.length + 1) cs.tail ['/'] 1
      else cleanLoop false (cs.length + 1) cs [] 0
    if rout = [] then "." else String.mk rout.reverse

/-- Go `path.Join` for two elements: concatenate the non-empty elements with
a slash and clean the result; the join of two empty strings is empty. -/
def pathJoin (a b : String) : String :=
  if a = "" ∧ b = "" then ""
  else if a = "" then pathClean b
  else pathClean (a ++ "/" ++ b)

/-! ## Coordinator (`handleUploadRequest`)

The Go handler reads the request method and JSON body, derives the store key,
issues an S3 `HeadObject`, and either answers a skip decision or presigns a
`PutObject` request and answers an ok decision with the exact header set the
client must send.  The S3 calls are oracles indexed by the key the handler
computed: `headErrAt key` is the error result of `HeadObject` (`none` = the
object exists) and `presignAt key` the result of
`req.Presign(1 * time.Minute)`. -/

/-- Wire metadata submitted by the client (Go `FileMetadata`; the Go field
`Bytes` carries the JSON name `size`). -/
structure FileMetadata where
  id : String
  name : String
  mtime : GoTime
  bytes : Int
  contentType : String
  testUpload : Bool
deriving DecidableEq, Repr

/-- Coordinator decision (Go `UploadDestination`).  The zero values of the Go
struct are the defaults here, so a skip decision carries no capability. -/
structure UploadDestination where
  status : String
  error : String := ""
  url : String := ""
  method : String := ""
  headers : List (String × String) := []
deriving DecidableEq, Repr

/-- Error result of the S3 `HeadObject` call.  The Go handler only tests
`err == nil`; `notFound` records whether the error was the expected
missing-object error or an unexpected backend failure. -/
structure S3Err where
  notFound : Bool
  msg : String
deriving DecidableEq, Repr

/-- Coordinator configuration read from SSM at startup. -/
structure CoordConfig where
  bucket : String
  pathPfx : String
  bcryptPass : String
deriving DecidableEq, Repr

/-- HTTP-level outcome of one handler invocation: the response status code
and the JSON-encoded decision body, when one was written.  A Go handler that
returns without writing yields an empty 200 response (`decision = none`). -/
structure HandlerOutput where
  httpStatus : Nat
  decision : Option UploadDestination
deriving DecidableEq, Repr

/-- Store key derivation from `handleUploadRequest`:
`path.Join(s.pathPrefix, ts + "-" + meta.ID + "-" + meta.Name)` with
`ts = meta.Mtime.Format("2006-01-02-15_04_05.9")`. -/
def deriveKey (pfx : String) (meta : FileMetadata) : String :=
  pathJoin pfx (formatSortable meta.mtime ++ "-" ++ meta.id ++ "-" ++ meta.name)

/-- The `PutObjectInput.Metadata` map built by the handler, in insertion
order: filename, RFC3339 mtime, and the test-upload marker iff requested. -/
def putMetadata (meta : FileMetadata) : List (String × String) :=
  [("filename", meta.name), ("mtime", formatRFC3339 meta.mtime)]
    ++ (if meta.testUpload then [("test-upload", "true")] else [])

/-- Go `handleUploadRequest`: method check, body decode, `HeadObject`
existence probe (any error is treated as absence), then presign-and-answer.
On a presign error the Go code logs and returns without writing a response. -/
def handleUploadRequest (cfg : CoordConfig) (headErrAt : String → Option S3Err)
    (presignAt : String → Except String String) (method : String)
    (body : Option FileMetadata) : HandlerOutput :=
  if method ≠ "POST" then
    { httpStatus := 405, decision := none }
  else
    match body with
    | none =>
      { httpStatus := 400
        decision := some { status := "error", error := "bad request" } }
    | some meta =>
      let s3Path := deriveKey cfg.pathPfx meta
      match headErrAt s3Path with
      | none => { httpStatus := 409, decision := some { status := "skip" } }
      | some _ =>
        match presignAt s3Path with
        | .error _ => { httpStatus := 200, decision := none }
        | .ok u =>
          { httpStatus := 200
            decision := some
              { status := "ok", url := u, method := "PUT"
                headers :=
                  [("content-length", toString meta.bytes),
                   ("content-type", meta.contentType)]
                    ++ (putMetadata meta).map
                        (fun kv => ("x-amz-meta-" ++ kv.1, kv.2)) } }

/-- ExistenceStore contract: the store is the set of keys holding an object,
and `HeadObject` succeeds exactly on present keys, failing with the expected
not-found error otherwise. -/
def headObject (store : List String) (key : String) : Option S3Err :=
  if key ∈ store then none else some { notFound := true, msg := "NotFound" }

/-- `RequestUpload` against a store state: the handler driven by the store's
`HeadObject` at the derived key. -/
def requestUpload (cfg : CoordConfig) (store : List String)
    (presignAt : String → Except String String) (meta : FileMetadata) :
    HandlerOutput :=
  handleUploadRequest cfg (headObject store) presignAt "POST" (some meta)

/-- Store transition when an issued capability is used to completion: the
capability is scoped to exactly the derived key, so the store gains an object
at that key (ExistenceStore contract, §3/§4.3 of the spec). -/
def completeUpload (cfg : CoordConfig) (store : List String)
    (meta : FileMetadata) : List String :=
  deriveKey cfg.pathPfx meta :: store

/-- Go `basicAuthMiddleware` wrapped around the handler: requests with absent
basic-auth credentials, or whose password fails the bcrypt comparison against
the stored hash, are answered 401 before the handler runs (the Go code
ignores the supplied username).  `bcryptOK hash pass` is the oracle for
`bcrypt.CompareHashAndPassword(hash, pass) == nil`. -/
def serveRequest (cfg : CoordConfig) (bcryptOK : String → String → Bool)
    (auth : Option (String × String)) (headErrAt : String → Option S3Err)
    (presignAt : String → Except String String) (method : String)
    (body : Option FileMetadata) : HandlerOutput :=
  match auth with
  | none => { httpStatus := 401, decision := none }
  | some (_, pass) =>
    if bcryptOK cfg.bcryptPass pass then
      handleUploadRequest cfg headErrAt presignAt method body
    else
      { httpStatus := 401, decision := none }

/-! ## Batch upload client (`photo-backup-batch`)

The per-file body of `run()` is embedded as `processFile`.  External results
are oracle inputs gathered in `FileCtx` (the sha256 digest, the filesystem
stat, `http.DetectContentType` of the first 512 bytes, and the
`readExifInfo` result) or passed per call (the coordinator's HTTP response,
the `uploadFile` result, the `os.Rename` result).  Filesystem and network
actions the client performs are recorded as an effect trace. -/

/-- Decidable equality for `Except`, needed to compare oracle results. -/
instance {ε α : Type} [DecidableEq ε] [DecidableEq α] :
    DecidableEq (Except ε α) := fun x y =>
  match x, y with
  | .ok a, .ok b =>
    if h : a = b then .isTrue (congrArg Except.ok h)
    else .isFalse (fun hh => h (Except.ok.inj hh))
  | .error a, .error b =>
    if h : a = b then .isTrue (congrArg Except.error h)
    else .isFalse (fun hh => h (Except.error.inj hh))
  | .ok _, .error _ => .isFalse (fun hh => Except.noConfusion hh)
  | .error _, .ok _ => .isFalse (fun hh => Except.noConfusion hh)

/-- EXIF summary produced by `readExifInfo` (Go `ExifInfo`).  `time` is the
parsed `DateTime` tag; a missing or unparsable tag leaves the zero value,
since the Go code ignores the `time.Parse` error. -/
structure ExifInfo where
  time : GoTime
  make : String
  model : String
deriving DecidableEq, Repr

/-- Inputs the client derives from one pending file before any decision:
base name, content digest, size and mtime from `Stat`, the sniffed MIME type
of the first 512 bytes, and the EXIF extraction result. -/
structure FileCtx where
  name : String
  id : String
  bytes : Int
  fsMtime : GoTime
  contentType : String
  exifRes : Except String ExifInfo
deriving DecidableEq, Repr

/-- Result of the HTTP POST to the coordinator as the client observes it:
either a transport error from `http.DefaultClient.Do`, or a status code plus
the JSON-decoded body (`none` when the body does not decode). -/
inductive HttpResult where
  | transportErr (msg : String)
  | response (status : Nat) (body : Option UploadDestination)
deriving DecidableEq, Repr

/-- Go `requestUploadURL`, interpretation of the coordinator's response: any
transport error fails; a status other than 200 and 409 (`StatusConflict`)
fails; otherwise the decoded body is returned (a decode failure fails). -/
def requestUploadURL (r : HttpResult) : Except String UploadDestination :=
  match r with
  | .transportErr msg => .error msg
  | .response st body =>
    if st ≠ 200 ∧ st ≠ 409 then
      .error ("non-200 status code: " ++ toString st)
    else
      match body with
      | none => .error "json decode error"
      | some dest => .ok dest

/-- First element of Go `strings.SplitN(s, "/", 2)`: the MIME top-level
type the client classifies on. -/
def splitN2First (s : String) : String :=
  String.mk (s.toList.takeWhile (fun c => c ≠ '/'))

/-- The mtime the client sends: for images with a successful EXIF
extraction the embedded capture time, otherwise the filesystem mtime. -/
def clientMtime (ctx : FileCtx) : GoTime :=
  if splitN2First ctx.contentType = "image" then
    match ctx.exifRes with
    | .error _ => ctx.fsMtime
    | .ok info => info.time
  else ctx.fsMtime

/-- The metadata `requestUploadURL` posts to the coordinator, as built in
`run()`/`requestUploadURL`: digest id, base name, refined mtime, stat size,
sniffed content type, and `TestUpload` hard-coded to `true`. -/
def sentMeta (ctx : FileCtx) : FileMetadata :=
  { id := ctx.id, name := ctx.name, mtime := clientMtime ctx
    bytes := ctx.bytes, contentType := ctx.contentType, testUpload := true }

/-- Externally visible actions of one per-file iteration. -/
inductive ClientEffect where
  | requested (meta : FileMetadata)
  | uploaded (dest : UploadDestination)
  | renamedToDone (srcName : String)
deriving DecidableEq, Repr

/-- Outcome of one per-file iteration: the actions performed, and the error
returned to the batch loop (`none` lets the batch continue). -/
structure StepResult where
  effects : List ClientEffect
  err : Option String
deriving DecidableEq, Repr

/-- Per-file body of the client's `run()` loop: classify on the sniffed MIME
top-level type (non-media files are logged and skipped with no request, no
move and no error), refine the mtime for images, request an upload decision,
then either complete locally on a skip decision or transfer the bytes and
complete.  `uploadRes`/`renameRes` are the `uploadFile` and `os.Rename`
results (`none` = success). -/
def processFile (ctx : FileCtx) (coordRes : HttpResult)
    (uploadRes renameRes : Option String) : StepResult :=
  let top := splitN2First ctx.contentType
  if top ≠ "image" ∧ top ≠ "audio" ∧ top ≠ "video" then
    { effects := [], err := none }
  else
    let meta := sentMeta ctx
    match requestUploadURL coordRes with
    | .error e => { effects := [.requested meta], err := some e }
    | .ok dest =>
      if dest.status = "skip" then
        { effects := [.requested meta, .renamedToDone ctx.name], err := renameRes }
      else
        match uploadRes with
        | some e => { effects := [.requested meta, .uploaded dest], err := some e }
        | none =>
          { effects := [.requested meta, .uploaded dest, .renamedToDone ctx.name]
            err := renameRes }

/-- The batch loop of `run()`: process the listed files in order, stopping
at the first iteration that returns an error and surfacing that error. -/
def runBatch :
    List (FileCtx × HttpResult × Option String × Option String) →
    List ClientEffect × Option String
  | [] => ([], none)
  | item :: rest =>
    let res := processFile item.1 item.2.1 item.2.2.1 item.2.2.2
    match res.err with
    | some e => (res.effects, some e)
    | none =>
      let p := runBatch rest
      (res.effects ++ p.1, p.2)

/-! ## Example values used by witnesses and counterexamples -/

/-- Example instant 2020-01-01T00:00:00Z. -/
def tEx : GoTime := { sec := 1577836800, nsec := 0, offset := 0 }

/-- Example coordinator configuration. -/
def cfgEx : CoordConfig :=
  { bucket := "bkt", pathPfx := "photos", bcryptPass := "bcrypt-hash" }

/-- Example client metadata. -/
def metaEx : FileMetadata :=
  { id := "abc123", name := "a.jpg", mtime := tEx, bytes := 4
    contentType := "image/jpeg", testUpload := true }

/-! ## C1 -/

/-- C1 counterexample: with an unexpected backend error from the existence
check (`notFound := false`) and a successfully signed capability, the
handler answers status=ok, not status=error; and when additionally the
signing fails, the handler writes no decision at all — again not
status=error.  This refutes the claim that such calls answer status=error. -/
theorem c1_counterexample :
    ((handleUploadRequest cfgEx
        (fun _ => some { notFound := false, msg := "InternalError" })
        (fun _ => .ok "https://signed.example/put") "POST"
        (some metaEx)).decision.map UploadDestination.status = some "ok")
    ∧ ((handleUploadRequest cfgEx
        (fun _ => some { notFound := false, msg := "InternalError" })
        (fun _ => .error "signing failed") "POST"
        (some metaEx)).decision = none) := by
  decide

/-- C1 (amended): the handler never distinguishes the expected missing-object
error from an unexpected backend error: on any `HeadObject` error it
proceeds to build the capability and answers status=ok when signing
succeeds, and on a signing failure it returns without writing any decision;
in neither case does it answer status=error. -/
theorem handleUploadRequest_backend_error_never_status_error
    (cfg : CoordConfig) (e : S3Err) (u msg : String) (meta : FileMetadata) :
    ((handleUploadRequest cfg (fun _ => some e) (fun _ => .ok u) "POST"
        (some meta)).decision.map UploadDestination.status = some "ok")
    ∧ (handleUploadRequest cfg (fun _ => some e) (fun _ => .error msg) "POST"
        (some meta)).decision = none := by
  constructor <;> simp [handleUploadRequest]

/-! ## C2 -/

/-- C2: when the derived store key already has an object (the key is in the
store, so `HeadObject` succeeds), `RequestUpload` answers status=skip with
the zero-valued capability fields (no URL, no method, no headers); and after
a first request's upload has completed, a second request for metadata with
the same derived key gets the same skip answer — no second capability. -/
theorem requestUpload_dedup_skip (cfg : CoordConfig) (store store0 : List String)
    (pr pr' : String → Except String String) (meta meta0 meta' : FileMetadata)
    (hmem : deriveKey cfg.pathPfx meta ∈ store)
    (hkey : deriveKey cfg.pathPfx meta' = deriveKey cfg.pathPfx meta0) :
    requestUpload cfg store pr meta =
      { httpStatus := 409, decision := some { status := "skip" } }
    ∧ requestUpload cfg (completeUpload cfg store0 meta0) pr' meta' =
      { httpStatus := 409, decision := some { status := "skip" } } := by
  constructor
  · simp [requestUpload, handleUploadRequest, headObject, hmem]
  · simp [requestUpload, handleUploadRequest, headObject, completeUpload, hkey]

/-- C2 witness at concrete values. -/
theorem requestUpload_dedup_skip_witness :
    requestUpload cfgEx [deriveKey "photos" metaEx]
        (fun _ => .ok "https://signed.example/put") metaEx =
      { httpStatus := 409, decision := some { status := "skip" } }
    ∧ requestUpload cfgEx (completeUpload cfgEx [] metaEx)
        (fun _ => .ok "https://signed.example/put") metaEx =
      { httpStatus := 409, decision := some { status := "skip" } } :=
  requestUpload_dedup_skip cfgEx [deriveKey "photos" metaEx] []
    (fun _ => .ok "https://signed.example/put")
    (fun _ => .ok "https://signed.example/put")
    metaEx metaEx metaEx (by decide) rfl

/-! ## C3 -/

/-- Metadata used to refute C3's injectivity: same id and mtime, names
`b/../a` and `c/../a`. -/
def metaC3a : FileMetadata :=
  { id := "deadbeef", name := "b/../a", mtime := tEx, bytes := 7
    contentType := "image/png", testUpload := false }

/-- Second C3 metadata, differing from `metaC3a` only in `name`. -/
def metaC3b : FileMetadata := { metaC3a with name := "c/../a" }

set_option maxHeartbeats 2000000 in
/-- C3 counterexample: identical id, differing names, yet the derived store
keys are equal, because Go `path.Join` lexically cleans the joined path and
both names collapse to `a` under `..`-elimination.  This refutes the claim
that differing names (with identical id) always yield differing keys. -/
theorem c3_counterexample :
    metaC3a.id = metaC3b.id ∧ metaC3a.name ≠ metaC3b.name ∧
    deriveKey "photos" metaC3a = deriveKey "photos" metaC3b := by
  decide

/-- C3 (amended): the store key is a deterministic function of exactly the
metadata's mtime, id and name under the configured path prefix — the other
metadata fields do not enter — but it is not injective in (mtime, name):
path cleaning of the joined key can make differing names collide. -/
theorem deriveKey_deterministic (pfx : String) (m m' : FileMetadata)
    (h1 : m.mtime = m'.mtime) (h2 : m.id = m'.id) (h3 : m.name = m'.name) :
    deriveKey pfx m = deriveKey pfx m' := by
  simp [deriveKey, h1, h2, h3]

/-- C3 witness: the key ignores size, content type and the test flag. -/
theorem deriveKey_deterministic_witness :
    deriveKey "photos" metaC3a = deriveKey "photos"
      { metaC3a with bytes := 999, contentType := "video/mp4", testUpload := true } :=
  deriveKey_deterministic "photos" metaC3a
    { metaC3a with bytes := 999, contentType := "video/mp4", testUpload := true }
    rfl rfl rfl
/-! ## C4 -/

/-- C4: every handler response carrying a status=ok decision has method PUT
and exactly the header set: content-length = decimal size, content-type,
x-amz-meta-filename = name, x-amz-meta-mtime = RFC3339 mtime, and
x-amz-meta-test-upload = "true" present iff the metadata's test flag is set. -/
theorem handleUploadRequest_ok_headers (cfg : CoordConfig)
    (headErrAt : String → Option S3Err) (presignAt : String → Except String String)
    (method : String) (meta : FileMetadata) (d : UploadDestination)
    (hd : (handleUploadRequest cfg headErrAt presignAt method (some meta)).decision
      = some d)
    (hok : d.status = "ok") :
    d.method = "PUT"
    ∧ d.headers =
        [("content-length", toString meta.bytes),
         ("content-type", meta.contentType),
         ("x-amz-meta-filename", meta.name),
         ("x-amz-meta-mtime", formatRFC3339 meta.mtime)]
          ++ (if meta.testUpload then [("x-amz-meta-test-upload", "true")] else [])
    ∧ ((("x-amz-meta-test-upload", "true") ∈ d.headers) ↔ meta.testUpload = true) := by
  simp only [handleUploadRequest] at hd
  split at hd
  · simp at hd
  · split at hd
    · simp at hd
      subst hd
      simp at hok
    · split at hd
      · simp at hd
      · simp at hd
        subst hd
        refine ⟨rfl, ?_, ?_⟩
        · simp only [putMetadata]
          cases htu : meta.testUpload <;> simp
        · cases htu : meta.testUpload <;> simp [putMetadata, htu]

/-- Concrete ok decision for the C4 witness. -/
def dC4 : UploadDestination :=
  { status := "ok", url := "https://signed.example/put", method := "PUT"
    headers := [("content-length", "4"), ("content-type", "image/jpeg"),
                ("x-amz-meta-filename", "a.jpg"),
                ("x-amz-meta-mtime", "2020-01-01T00:00:00Z"),
                ("x-amz-meta-test-upload", "true")] }

set_option maxHeartbeats 2000000 in
/-- C4 witness at a concrete ok decision. -/
theorem handleUploadRequest_ok_headers_witness :
    dC4.method = "PUT"
    ∧ dC4.headers =
        [("content-length", toString metaEx.bytes),
         ("content-type", metaEx.contentType),
         ("x-amz-meta-filename", metaEx.name),
         ("x-amz-meta-mtime", formatRFC3339 metaEx.mtime)]
          ++ (if metaEx.testUpload then [("x-amz-meta-test-upload", "true")] else [])
    ∧ ((("x-amz-meta-test-upload", "true") ∈ dC4.headers) ↔ metaEx.testUpload = true) :=
  handleUploadRequest_ok_headers cfgEx
    (fun _ => some { notFound := true, msg := "NotFound" })
    (fun _ => .ok "https://signed.example/put") "POST" metaEx dC4 (by decide) rfl

/-! ## C5 -/

/-- C5: a file whose sniffed MIME top-level type is outside image/audio/video
produces no coordinator request, no move out of the pending directory and no
error, and the batch continues exactly as if the file were not there. -/
theorem processFile_nonmedia_skipped (ctx : FileCtx) (coordRes : HttpResult)
    (uploadRes renameRes : Option String)
    (rest : List (FileCtx × HttpResult × Option String × Option String))
    (h : splitN2First ctx.contentType ≠ "image"
       ∧ splitN2First ctx.contentType ≠ "audio"
       ∧ splitN2First ctx.contentType ≠ "video") :
    processFile ctx coordRes uploadRes renameRes = { effects := [], err := none }
    ∧ runBatch ((ctx, coordRes, uploadRes, renameRes) :: rest) = runBatch rest := by
  have h1 : processFile ctx coordRes uploadRes renameRes = ⟨[], none⟩ := by
    unfold processFile
    rw [if_pos h]
  exact ⟨h1, by simp [runBatch, h1]⟩

/-- C5 witness: a text file is skipped without contacting the coordinator. -/
theorem processFile_nonmedia_skipped_witness :
    processFile
        { name := "notes.txt", id := "ff00", bytes := 11, fsMtime := tEx
          contentType := "text/plain; charset=utf-8", exifRes := .error "no exif" }
        (.transportErr "coordinator unreachable") none none
      = { effects := [], err := none }
    ∧ runBatch
        [({ name := "notes.txt", id := "ff00", bytes := 11, fsMtime := tEx
            contentType := "text/plain; charset=utf-8", exifRes := .error "no exif" },
          .transportErr "coordinator unreachable", none, none)]
      = runBatch [] :=
  processFile_nonmedia_skipped
    { name := "notes.txt", id := "ff00", bytes := 11, fsMtime := tEx
      contentType := "text/plain; charset=utf-8", exifRes := .error "no exif" }
    (.transportErr "coordinator unreachable") none none []
    (by decide)

/-! ## C6 -/

/-- C6: on a skip decision from the coordinator, the client's actions are
exactly the request and the move of the source file into the done
directory — in particular no upload transfer is issued. -/
theorem processFile_skip_moves_without_upload (ctx : FileCtx)
    (coordRes : HttpResult) (uploadRes renameRes : Option String)
    (dest : UploadDestination)
    (hmedia : splitN2First ctx.contentType = "image"
      ∨ splitN2First ctx.contentType = "audio"
      ∨ splitN2First ctx.contentType = "video")
    (hreq : requestUploadURL coordRes = .ok dest)
    (hskip : dest.status = "skip") :
    (processFile ctx coordRes uploadRes renameRes).effects
      = [.requested (sentMeta ctx), .renamedToDone ctx.name]
    ∧ ∀ dst, ClientEffect.uploaded dst ∉
        (processFile ctx coordRes uploadRes renameRes).effects := by
  have hcond : ¬(splitN2First ctx.contentType ≠ "image"
      ∧ splitN2First ctx.contentType ≠ "audio"
      ∧ splitN2First ctx.contentType ≠ "video") := by
    rcases hmedia with h | h | h <;> simp [h]
  have heq : processFile ctx coordRes uploadRes renameRes =
      { effects := [.requested (sentMeta ctx), .renamedToDone ctx.name]
        err := renameRes } := by
    unfold processFile
    rw [if_neg hcond, hreq]
    simp [hskip]
  rw [heq]
  exact ⟨rfl, by intro dst; simp⟩

/-- C6 witness: media file, skip decision delivered via 409. -/
theorem processFile_skip_moves_without_upload_witness :
    (processFile
        { name := "a.jpg", id := "abc123", bytes := 4, fsMtime := tEx
          contentType := "image/jpeg", exifRes := .error "no exif" }
        (.response 409 (some { status := "skip" })) none none).effects
      = [.requested (sentMeta
          { name := "a.jpg", id := "abc123", bytes := 4, fsMtime := tEx
            contentType := "image/jpeg", exifRes := .error "no exif" }),
         .renamedToDone "a.jpg"]
    ∧ ∀ dst, ClientEffect.uploaded dst ∉
        (processFile
          { name := "a.jpg", id := "abc123", bytes := 4, fsMtime := tEx
            contentType := "image/jpeg", exifRes := .error "no exif" }
          (.response 409 (some { status := "skip" })) none none).effects :=
  processFile_skip_moves_without_upload
    { name := "a.jpg", id := "abc123", bytes := 4, fsMtime := tEx
      contentType := "image/jpeg", exifRes := .error "no exif" }
    (.response 409 (some { status := "skip" })) none none
    { status := "skip" } (by decide) (by decide) rfl

/-! ## C7 -/

/-- C7: the client's interpretation of the coordinator exchange: a transport
failure is an error; a response status that is neither 2xx nor 409 is an
error (with the code's message); a skip decision is accepted both from a 200
body and from a 409 body; and a per-file error stops the batch at that file,
surfacing the error. -/
theorem requestUploadURL_error_handling :
    (∀ msg, requestUploadURL (.transportErr msg) = .error msg)
    ∧ (∀ st body, ¬(200 ≤ st ∧ st < 300) → st ≠ 409 →
        requestUploadURL (.response st body)
          = .error ("non-200 status code: " ++ toString st))
    ∧ (∀ dest, dest.status = "skip" →
        requestUploadURL (.response 200 (some dest)) = .ok dest)
    ∧ (∀ dest, dest.status = "skip" →
        requestUploadURL (.response 409 (some dest)) = .ok dest)
    ∧ (∀ ctx coordRes uploadRes renameRes msg rest,
        (processFile ctx coordRes uploadRes renameRes).err = some msg →
        runBatch ((ctx, coordRes, uploadRes, renameRes) :: rest)
          = ((processFile ctx coordRes uploadRes renameRes).effects, some msg)) := by
  refine ⟨fun msg => rfl, ?_, fun dest _ => rfl, fun dest _ => rfl, ?_⟩
  · intro st body hnot2xx h409
    have h200 : st ≠ 200 := by
      rintro rfl
      exact hnot2xx ⟨le_refl 200, by norm_num⟩
    simp [requestUploadURL, h200, h409]
  · intro ctx coordRes uploadRes renameRes msg rest herr
    simp [runBatch, herr]

/-- C7 witness: a 500 response is rejected with the code's error message. -/
theorem requestUploadURL_error_handling_witness :
    requestUploadURL (.response 500 none) = .error "non-200 status code: 500" :=
  requestUploadURL_error_handling.2.1 500 none (by decide) (by decide)

/-! ## C8 -/

/-- C8: for an image, the mtime sent to the coordinator is the filesystem
mtime whenever EXIF extraction fails and the extracted capture time whenever
it succeeds; the extraction outcome never changes the error result of the
iteration; and the metadata actually requested is `sentMeta`. -/
theorem processFile_image_mtime_best_effort (ctx : FileCtx)
    (himg : splitN2First ctx.contentType = "image") :
    (∀ e, ctx.exifRes = .error e → (sentMeta ctx).mtime = ctx.fsMtime)
    ∧ (∀ info, ctx.exifRes = .ok info → (sentMeta ctx).mtime = info.time)
    ∧ (∀ ex coordRes uploadRes renameRes,
        (processFile { ctx with exifRes := ex } coordRes uploadRes renameRes).err
          = (processFile ctx coordRes uploadRes renameRes).err)
    ∧ (∀ coordRes uploadRes renameRes,
        (processFile ctx coordRes uploadRes renameRes).effects.head?
          = some (.requested (sentMeta ctx))) := by
  refine ⟨?_, ?_, ?_, ?_⟩
  · intro e he
    simp [sentMeta, clientMtime, himg, he]
  · intro info hinfo
    simp [sentMeta, clientMtime, himg, hinfo]
  · intro ex coordRes uploadRes renameRes
    unfold processFile
    simp only [himg]
    cases hr : requestUploadURL coordRes with
    | error e => simp
    | ok dest =>
      by_cases hs : dest.status = "skip" <;>
        cases uploadRes <;> simp [hs]
  · intro coordRes uploadRes renameRes
    unfold processFile
    simp only [himg]
    cases hr : requestUploadURL coordRes with
    | error e => simp
    | ok dest =>
      by_cases hs : dest.status = "skip" <;>
        cases uploadRes <;> simp [hs]

/-- Concrete image context for the C8 witness. -/
def ctxImgEx : FileCtx :=
  { name := "a.jpg", id := "abc123", bytes := 4, fsMtime := tEx
    contentType := "image/jpeg", exifRes := .error "parse jpeg exif search err" }

/-- C8 witness: EXIF failure falls back to the filesystem mtime. -/
theorem processFile_image_mtime_best_effort_witness :
    (sentMeta ctxImgEx).mtime = ctxImgEx.fsMtime :=
  (processFile_image_mtime_best_effort ctxImgEx (by decide)).1
    "parse jpeg exif search err" rfl

/-! ## C9 -/

/-- C9: a request with absent credentials, or whose password the bcrypt
check rejects against the stored hash, is answered 401 before the handler
runs: the response is the bare unauthorized response and is identical for
every request body, so the body is never parsed. -/
theorem serveRequest_unauthorized (cfg : CoordConfig)
    (bcryptOK : String → String → Bool) (auth : Option (String × String))
    (h : ∀ u p, auth = some (u, p) → bcryptOK cfg.bcryptPass p = false)
    (headErrAt : String → Option S3Err) (presignAt : String → Except String String)
    (method : String) (body body' : Option FileMetadata) :
    serveRequest cfg bcryptOK auth headErrAt presignAt method body
      = { httpStatus := 401, decision := none }
    ∧ serveRequest cfg bcryptOK auth headErrAt presignAt method body
      = serveRequest cfg bcryptOK auth headErrAt presignAt method body' := by
  have hmain : ∀ b, serveRequest cfg bcryptOK auth headErrAt presignAt method b
      = { httpStatus := 401, decision := none } := by
    intro b
    rcases auth with _ | ⟨u, p⟩
    · rfl
    · simp [serveRequest, h u p rfl]
  exact ⟨hmain body, (hmain body).trans (hmain body').symm⟩

/-- C9 witness: wrong password yields 401 whatever the body holds. -/
theorem serveRequest_unauthorized_witness :
    serveRequest cfgEx (fun _ _ => false) (some ("user", "wrong"))
        (fun _ => some { notFound := true, msg := "NotFound" })
        (fun _ => .ok "https://signed.example/put") "POST" (some metaEx)
      = { httpStatus := 401, decision := none }
    ∧ serveRequest cfgEx (fun _ _ => false) (some ("user", "wrong"))
        (fun _ => some { notFound := true, msg := "NotFound" })
        (fun _ => .ok "https://signed.example/put") "POST" (some metaEx)
      = serveRequest cfgEx (fun _ _ => false) (some ("user", "wrong"))
        (fun _ => some { notFound := true, msg := "NotFound" })
        (fun _ => .ok "https://signed.example/put") "POST" none :=
  serveRequest_unauthorized cfgEx (fun _ _ => false) (some ("user", "wrong"))
    (fun _ _ _ => rfl)
    (fun _ => some { notFound := true, msg := "NotFound" })
    (fun _ => .ok "https://signed.example/put") "POST" (some metaEx) none

/-! ## C10 -/

/-- C10: the client hard-codes test_upload = true in every metadata it
sends, and any status=ok decision the handler mints for metadata with the
test flag set carries the x-amz-meta-test-upload = "true" header. -/
theorem client_test_upload_marker (ctx : FileCtx) (cfg : CoordConfig)
    (headErrAt : String → Option S3Err) (presignAt : String → Except String String)
    (method : String) (meta : FileMetadata) (d : UploadDestination)
    (ht : meta.testUpload = true)
    (hd : (handleUploadRequest cfg headErrAt presignAt method (some meta)).decision
      = some d)
    (hok : d.status = "ok") :
    (sentMeta ctx).testUpload = true
    ∧ ("x-amz-meta-test-upload", "true") ∈ d.headers := by
  refine ⟨rfl, ?_⟩
  simp only [handleUploadRequest] at hd
  split at hd
  · simp at hd
  · split at hd
    · simp at hd
      subst hd
      simp at hok
    · split at hd
      · simp at hd
      · simp at hd
        subst hd
        simp [putMetadata, ht]

set_option maxHeartbeats 2000000 in
/-- C10 witness: concrete upload of `metaEx` (whose test flag is set). -/
theorem client_test_upload_marker_witness :
    (sentMeta ctxImgEx).testUpload = true
    ∧ ("x-amz-meta-test-upload", "true") ∈ dC4.headers :=
  client_test_upload_marker ctxImgEx cfgEx
    (fun _ => some { notFound := true, msg := "NotFound" })
    (fun _ => .ok "https://signed.example/put") "POST" metaEx dC4
    rfl (by decide) rfl
